import Mathlib

/-!
Verification development for the graphql-library repository.

The definitions below are a shallow embedding of the borrowing-lifecycle
core of the repository: the mongoose schemas in `src/models/book.js` (which
also carries the Borrowing schema) and the GraphQL resolvers in
`src/unnamed/part_001` (`addBook`, `borrowBook`, `returnBook`,
`searchBooks`, `daysOverdue`).  `src/unnamed/part_000` is an earlier
variant of the same resolver file without the `AppError` code taxonomy;
the embedding follows `part_001`, whose error codes the specification
describes.

Modelling conventions:
* MongoDB document ids are opaque; they are modelled as `Nat`, allocated
  sequentially by the store.  The transport-level
  `mongoose.Types.ObjectId.isValid` guard (`INVALID_ID`) is therefore not
  modelled: every `Nat` is a valid id.
* Timestamps (`Date` values, millisecond precision) are modelled as `Int`
  and supplied explicitly as a `now` argument wherever the source calls
  `new Date()`.
* A resolver returns `St × Except ErrCode α`: the (possibly updated)
  database state together with either the resolver's result or the
  `AppError` code it throws.  Error paths return the state reached at the
  point of the throw, which for all user-facing errors is the initial
  state.
-/

deriving instance DecidableEq for Except

namespace LibSpec

/-- The `AppError` codes thrown by the resolvers of `src/unnamed/part_001`
that are relevant to the borrowing core. -/
inductive ErrCode where
  | UNAUTHENTICATED
  | INVALID_INPUT
  | INVALID_COPIES
  | ISBN_EXISTS
  | BOOK_NOT_FOUND
  | NO_COPIES_AVAILABLE
  | ALREADY_BORROWED
  | BORROWING_NOT_FOUND
  | UNAUTHORIZED
  | ALREADY_RETURNED
  | RETURN_BOOK_ERROR
  deriving DecidableEq, Repr

/-- A persisted Book document, after the `bookSchema` of
`src/models/book.js` lines 3-9: `title`, `author`, `category`, `isbn`,
`availableCopies` (plus the implicit `_id`, modelled as `id : Nat`).

`totalCopies` is NOT a schema path: `addBook` passes `totalCopies: copies`
to `Book.create` (`src/unnamed/part_001` line 344) but mongoose strict
mode drops it (see `mongooseCreate`/`bookSchemaFields` below, which model
that fact).  It is carried here only as ghost data recording the `copies`
argument of the `addBook` call that created the book, so that the
specification's invariant `availableCopies ≤ totalCopies` can be stated;
no modelled operation ever reads it. -/
structure Book where
  id : Nat
  title : String
  author : String
  category : Option String
  isbn : String
  availableCopies : Int
  totalCopies : Int
  deriving DecidableEq, Repr

/-- A persisted Borrowing document, after the `borrowingSchema` in
`src/models/book.js` (lines 35-45 of the combined file): `member` and
`book` are references (ids), `borrowDate` a Date, `returnDate` an optional
Date, `returned` a Boolean defaulting to `false`. -/
structure Borrowing where
  id : Nat
  member : Nat
  book : Nat
  borrowDate : Int
  returnDate : Option Int
  returned : Bool
  deriving DecidableEq, Repr

/-- The database state seen by the resolvers: the Book and Borrowing
collections, plus the next fresh id for each (modelling MongoDB's id
allocation: every freshly created document gets an id distinct from all
existing ones). -/
structure St where
  books : List Book
  borrowings : List Borrowing
  nextBookId : Nat
  nextBorrowingId : Nat
  deriving DecidableEq, Repr

/-- The empty database. -/
def emptySt : St := ⟨[], [], 0, 0⟩

/-- `Book.findById(bookId)`. -/
def findBook (st : St) (bookId : Nat) : Option Book :=
  st.books.find? (fun b => b.id == bookId)

/-- `Borrowing.findById(borrowingId)`. -/
def findBorrowing (st : St) (borrowingId : Nat) : Option Borrowing :=
  st.borrowings.find? (fun b => b.id == borrowingId)

/-- `Borrowing.findOne({ member, book, returned: false })` used as an
existence check (`src/unnamed/part_001` lines 374-378): is there an ACTIVE
borrowing for this (member, book) pair? -/
def hasActiveBorrowing (st : St) (memberId bookId : Nat) : Bool :=
  st.borrowings.any
    (fun b => b.member == memberId && b.book == bookId && b.returned == false)

/-- Number of ACTIVE (returned=false) borrowings of a given book. -/
def activeCount (brs : List Borrowing) (bookId : Nat) : Nat :=
  brs.countP (fun b => b.book == bookId && b.returned == false)

/-- `book.save()` after assigning `book.availableCopies = v`: the document
with the given id is overwritten so that its `availableCopies` is `v`. -/
def saveBookAvail (st : St) (bookId : Nat) (v : Int) : St :=
  { st with
    books := st.books.map
      (fun b => if b.id == bookId then { b with availableCopies := v } else b) }

/-- `Borrowing.create({...})`: append a fresh ACTIVE borrowing document
(`returned: false`, `borrowDate` = now, no `returnDate`) and return it. -/
def createBorrowing (st : St) (memberId bookId : Nat) (now : Int) :
    St × Borrowing :=
  let newBr : Borrowing := ⟨st.nextBorrowingId, memberId, bookId, now, none, false⟩
  ({ st with
      borrowings := st.borrowings ++ [newBr],
      nextBorrowingId := st.nextBorrowingId + 1 },
    newBr)

/-- `borrowing.save()` after mutating the in-memory borrowing document:
the document with the given id is overwritten by `u`. -/
def saveBorrowing (st : St) (borrowingId : Nat) (u : Borrowing) : St :=
  { st with
    borrowings := st.borrowings.map
      (fun b => if b.id == borrowingId then u else b) }

/-- The `addBook` mutation, `src/unnamed/part_001` lines 315-352.
`uid` is `context.userId` (the authenticated member, if any).  In source
order: the auth check, then `!title || !author || !isbn || !copies`
(JavaScript falsiness: a String is falsy exactly when empty, an Int exactly
when 0) throwing `INVALID_INPUT`, then `copies < 1` throwing
`INVALID_COPIES`, then the duplicate-isbn check throwing `ISBN_EXISTS`,
then `Book.create({...input, availableCopies: copies, totalCopies: copies})`
(`totalCopies` recorded as ghost data, cf. `Book`). -/
def addBook (st : St) (uid : Option Nat) (title author isbn : String)
    (copies : Int) (category : Option String) : St × Except ErrCode Book :=
  match uid with
  | none => (st, .error .UNAUTHENTICATED)
  | some _ =>
    if title == "" || author == "" || isbn == "" || copies == 0 then
      (st, .error .INVALID_INPUT)
    else if copies < 1 then
      (st, .error .INVALID_COPIES)
    else if st.books.any (fun b => b.isbn == isbn) then
      (st, .error .ISBN_EXISTS)
    else
      let book : Book := ⟨st.nextBookId, title, author, category, isbn, copies, copies⟩
      ({ st with books := st.books ++ [book], nextBookId := st.nextBookId + 1 },
        .ok book)

/-- The `borrowBook` mutation, `src/unnamed/part_001` lines 354-404.
In source order: the auth check, `Book.findById` throwing
`BOOK_NOT_FOUND`, the `availableCopies <= 0` availability check throwing
`NO_COPIES_AVAILABLE`, the ACTIVE-duplicate check throwing
`ALREADY_BORROWED`, then `Borrowing.create` followed by
`book.availableCopies -= 1; book.save()` (the saved value is computed from
the document read by `findById`). -/
def borrowBook (st : St) (uid : Option Nat) (bookId : Nat) (now : Int) :
    St × Except ErrCode Borrowing :=
  match uid with
  | none => (st, .error .UNAUTHENTICATED)
  | some memberId =>
    match findBook st bookId with
    | none => (st, .error .BOOK_NOT_FOUND)
    | some book =>
      if book.availableCopies ≤ 0 then
        (st, .error .NO_COPIES_AVAILABLE)
      else if hasActiveBorrowing st memberId bookId then
        (st, .error .ALREADY_BORROWED)
      else
        let p := createBorrowing st memberId bookId now
        (saveBookAvail p.1 bookId (book.availableCopies - 1), .ok p.2)

/-- The `returnBook` mutation, `src/unnamed/part_001` lines 406-450.
In source order: the auth check, `Borrowing.findById` throwing
`BORROWING_NOT_FOUND`, the ownership check
(`borrowing.member.toString() !== context.userId`) throwing
`UNAUTHORIZED`, the `borrowing.returned` check throwing
`ALREADY_RETURNED`, then the borrowing is mutated
(`returned = true; returnDate = now`) and saved, and finally
`Book.findById(borrowing.book)` is read and saved back with
`availableCopies + 1`.  If that book lookup came back `null` the source
would crash on the field access after the borrowing was already saved;
the catch-all wrapper turns this into `RETURN_BOOK_ERROR` with the
borrowing mutation already persisted (this path is unreachable from
reachable states, cf. the invariant `Inv`). -/
def returnBook (st : St) (uid : Option Nat) (borrowingId : Nat) (now : Int) :
    St × Except ErrCode Borrowing :=
  match uid with
  | none => (st, .error .UNAUTHENTICATED)
  | some memberId =>
    match findBorrowing st borrowingId with
    | none => (st, .error .BORROWING_NOT_FOUND)
    | some borrowing =>
      if borrowing.member ≠ memberId then
        (st, .error .UNAUTHORIZED)
      else if borrowing.returned then
        (st, .error .ALREADY_RETURNED)
      else
        let updated : Borrowing := { borrowing with returned := true, returnDate := some now }
        let st1 := saveBorrowing st borrowingId updated
        match findBook st1 borrowing.book with
        | none => (st1, .error .RETURN_BOOK_ERROR)
        | some book =>
          (saveBookAvail st1 borrowing.book (book.availableCopies + 1), .ok updated)

/-- An operation of the borrowing core, for stating properties of
operation sequences. -/
inductive Op where
  | addBook (uid : Option Nat) (title author isbn : String) (copies : Int)
      (category : Option String)
  | borrowBook (uid : Option Nat) (bookId : Nat) (now : Int)
  | returnBook (uid : Option Nat) (borrowingId : Nat) (now : Int)

/-- The state reached by one operation (errors leave the returned state). -/
def applyOp (st : St) : Op → St
  | .addBook uid t a i c cat => (addBook st uid t a i c cat).1
  | .borrowBook uid k now => (borrowBook st uid k now).1
  | .returnBook uid bid now => (returnBook st uid bid now).1

/-- The state reached by a sequence of operations from the empty catalog. -/
def run (ops : List Op) : St := ops.foldl applyOp emptySt

/-- Milliseconds per day, `1000 * 60 * 60 * 24` from
`src/unnamed/part_001` line 503. -/
def msPerDay : Nat := 1000 * 60 * 60 * 24

/-- The `daysOverdue` field resolver, `src/unnamed/part_001` lines
498-507.  For a not-returned borrowing: `diffTime = Math.abs(today -
borrowDate)` in milliseconds, `diffDays = Math.ceil(diffTime / msPerDay)`
(ceiling division, modelled on `Nat` since `diffTime` is an absolute
value), and the result is `diffDays - 14` when `diffDays > 14`, else 0.
For a returned borrowing the resolver returns 0. -/
def daysOverdue (returned : Bool) (borrowDate now : Int) : Int :=
  if returned = false then
    let diffTime : Nat := (now - borrowDate).natAbs
    let diffDays : Nat := (diffTime + (msPerDay - 1)) / msPerDay
    if 14 < diffDays then (diffDays : Int) - 14 else 0
  else 0

/-- The specification's formula for the derived field, written from the
spec's words: `max(0, ceil((now - borrowDate) in days) - 14)` for ACTIVE
borrowings, always 0 for RETURNED ones.  The spec's formula reads
`now - borrowDate` as an elapsed (nonnegative) duration, so the ceiling
is taken of the `Nat` difference. -/
def specDaysOverdue (returned : Bool) (borrowDate now : Int) : Int :=
  if returned = false then
    max 0 ((((now - borrowDate).toNat + (msPerDay - 1)) / msPerDay : Nat) - 14)
  else 0

/-- A character of the modelled regular-expression patterns: a literal
character or the `.` wildcard. -/
inductive PChar where
  | lit (c : Char)
  | wild
  deriving DecidableEq, Repr

/-- ASCII lowercase conversion, for the `$options: 'i'` (case-insensitive)
flag of the source's `$regex` queries. -/
def asciiLower (c : Char) : Char :=
  if 'A' ≤ c ∧ c ≤ 'Z' then Char.ofNat (c.toNat + 32) else c

/-- Case-insensitive character comparison. -/
def chEq (a b : Char) : Bool := asciiLower a == asciiLower b

/-- Modelled from MongoDB `$regex` (PCRE) pattern compilation, restricted
to the fragment the claims need: every character of the query is a literal
except `.`, which matches any single character.  This is faithful to PCRE
for queries that contain no regex metacharacter other than `.`; the code
that interprets the query as a pattern lives in MongoDB, not in this
repository. -/
def parsePattern (q : List Char) : List PChar :=
  q.map (fun c => if c = '.' then PChar.wild else PChar.lit c)

/-- Does the pattern match a prefix of the text (case-insensitively)? -/
def matchesAt : List PChar → List Char → Bool
  | [], _ => true
  | _ :: _, [] => false
  | PChar.lit c :: p, d :: s => chEq c d && matchesAt p s
  | PChar.wild :: p, _ :: s => matchesAt p s

/-- Unanchored (search) matching: does the pattern match starting at some
position of the text?  This is the `$regex` membership test. -/
def matchesIn (p : List PChar) : List Char → Bool
  | [] => matchesAt p []
  | d :: t => matchesAt p (d :: t) || matchesIn p t

/-- Is `n` a (case-insensitive) prefix of `h`? -/
def isPref : List Char → List Char → Bool
  | [], _ => true
  | _ :: _, [] => false
  | c :: n, d :: h => chEq c d && isPref n h

/-- Case-insensitive substring containment, for the spec's description of
search ("matching title or author case-insensitively (substring match)"). -/
def containsSub (n : List Char) : List Char → Bool
  | [] => isPref n []
  | d :: t => isPref n (d :: t) || containsSub n t

/-- The `searchBooks` query, `src/unnamed/part_001` lines 137-149:
`Book.find` with `$or` of `title: { $regex: query, $options: 'i' }` and
`author: { $regex: query, $options: 'i' }`. -/
def searchBooks (st : St) (q : String) : List Book :=
  st.books.filter (fun b =>
    matchesIn (parsePattern q.toList) b.title.toList ||
    matchesIn (parsePattern q.toList) b.author.toList)

/-- Search as the spec's words describe it: the books whose title or
author contains the query as a case-insensitive substring (the definition
to be compared with `searchBooks`). -/
def specSearchBooks (st : St) (q : String) : List Book :=
  st.books.filter (fun b =>
    containsSub q.toList b.title.toList ||
    containsSub q.toList b.author.toList)

/-- The PCRE metacharacters; a query avoiding all of them is interpreted
by `$regex` as a plain (case-insensitive) substring test. -/
def regexMetaChars : List Char :=
  ['.', '*', '+', '?', '(', ')', '[', ']', '\x7b', '\x7d', '\\', '^', '$', '|']

/-- A document value (the payloads relevant to the Book schema). -/
inductive DocVal where
  | str (s : String)
  | int (n : Int)
  deriving DecidableEq, Repr

/-- A MongoDB document as a field-name/value association list. -/
def Doc := List (String × DocVal)

/-- The paths of `bookSchema`, `src/models/book.js` lines 3-9: `title`,
`author`, `category`, `isbn`, `availableCopies` — and no `totalCopies`. -/
def bookSchemaFields : List String :=
  ["title", "author", "category", "isbn", "availableCopies"]

/-- Modelled from mongoose strict-mode document creation (the default for
`new mongoose.Schema`, and `bookSchema` does not opt out): values passed
to `Model.create` whose paths are not declared in the schema are silently
dropped from the persisted document. -/
def mongooseCreate (schemaFields : List String) (doc : Doc) : Doc :=
  doc.filter (fun kv => schemaFields.contains kv.1)

/-- The document `addBook` passes to `Book.create`, `src/unnamed/part_001`
lines 341-345: the spread of the input (`title`, `author`, `isbn`,
`copies`, and `category` when given) plus `availableCopies: copies` and
`totalCopies: copies`. -/
def addBookCreateDoc (title author isbn : String) (copies : Int)
    (category : Option String) : Doc :=
  ([("title", DocVal.str title), ("author", DocVal.str author),
    ("isbn", DocVal.str isbn), ("copies", DocVal.int copies)] ++
      (match category with
        | some c => [("category", DocVal.str c)]
        | none => [])) ++
    [("availableCopies", DocVal.int copies), ("totalCopies", DocVal.int copies)]

/-- The Book document as persisted by a successful `addBook`: the create
document filtered through the schema. -/
def persistedBook (title author isbn : String) (copies : Int)
    (category : Option String) : Doc :=
  mongooseCreate bookSchemaFields (addBookCreateDoc title author isbn copies category)

/-- One admissible interleaving of two concurrent `borrowBook` calls (by
members `m1` and `m2`, for the same book `k`).  Each `await` in
`src/unnamed/part_001` lines 365-397 is a yield point, and nothing in the
source serializes the two requests, so the scheduler may run
A:`Book.findById`, B:`Book.findById`, then A's remaining steps
(`Borrowing.findOne`, `Borrowing.create`, `book.save` writing A's stale
`availableCopies - 1`), then B's remaining steps (B's `book.save` also
writes `availableCopies - 1` of the document B read before A committed).
Every check each request makes appears here in source order; `none` means
this particular schedule does not drive both requests to success. -/
def racyDoubleBorrow (st : St) (m1 m2 k : Nat) (now : Int) :
    Option (St × Borrowing × Borrowing) :=
  match findBook st k with
  | none => none
  | some bkA =>
    match findBook st k with
    | none => none
    | some bkB =>
      if bkA.availableCopies ≤ 0 then none
      else if bkB.availableCopies ≤ 0 then none
      else if hasActiveBorrowing st m1 k then none
      else
        let p1 := createBorrowing st m1 k now
        let st2 := saveBookAvail p1.1 k (bkA.availableCopies - 1)
        if hasActiveBorrowing st2 m2 k then none
        else
          let p2 := createBorrowing st2 m2 k now
          let st4 := saveBookAvail p2.1 k (bkB.availableCopies - 1)
          some (st4, p1.2, p2.2)

/-- The state invariant of the borrowing core, the inductive strengthening
of the spec's "for all books, 0 ≤ availableCopies ≤ totalCopies":
distinct ids, ids below the allocator, borrowings referencing existing
books, nonnegative copy counts, and conservation
`availableCopies + #(active borrowings of the book) = totalCopies`. -/
structure Inv (st : St) : Prop where
  booksNodup : (st.books.map Book.id).Nodup
  borrowingsNodup : (st.borrowings.map Borrowing.id).Nodup
  booksLt : ∀ b ∈ st.books, b.id < st.nextBookId
  borrowingsLt : ∀ br ∈ st.borrowings, br.id < st.nextBorrowingId
  refs : ∀ br ∈ st.borrowings, ∃ b ∈ st.books, b.id = br.book
  nonneg : ∀ b ∈ st.books, 0 ≤ b.availableCopies
  conserved : ∀ b ∈ st.books,
    b.availableCopies + (activeCount st.borrowings b.id : Int) = b.totalCopies

/-- Concrete states and values used by the witness and counterexample
theorems below. -/
def wBook1 : Book := ⟨0, "t", "a", none, "i", 1, 1⟩

/-- Operation sequence for the copy-count invariant witness: add a book
with 2 copies, then borrow it. -/
def wopsC2 : List Op :=
  [Op.addBook (some 0) "t" "a" "i" 2 none, Op.borrowBook (some 0) 0 0]

/-- The book after running `wopsC2`: 1 of 2 copies available. -/
def wbookC2 : Book := ⟨0, "t", "a", none, "i", 1, 2⟩

/-- State with one ACTIVE borrowing (id 0) owned by member 0. -/
def wstC3 : St := ⟨[⟨0, "t", "a", none, "i", 0, 1⟩], [⟨0, 0, 0, 0, none, false⟩], 1, 1⟩

/-- State with one RETURNED borrowing (id 0) owned by member 0. -/
def cstC4 : St := ⟨[wBook1], [⟨0, 0, 0, 0, some 1, true⟩], 1, 1⟩

/-- Initial state for the borrow/return round-trip witness. -/
def wstC5 : St := ⟨[wBook1], [], 1, 0⟩

/-- State after member 0 borrows book 0 from `wstC5` at time 5. -/
def wst1C5 : St :=
  ⟨[⟨0, "t", "a", none, "i", 0, 1⟩], [⟨0, 0, 0, 5, none, false⟩], 1, 1⟩

/-- State after member 0 then returns borrowing 0 at time 9. -/
def wst2C5 : St :=
  ⟨[⟨0, "t", "a", none, "i", 1, 1⟩], [⟨0, 0, 0, 5, some 9, true⟩], 1, 1⟩

/-- The borrowing created by the round-trip witness's borrow. -/
def wbrC5 : Borrowing := ⟨0, 0, 0, 5, none, false⟩

/-- The same borrowing after the round-trip witness's return. -/
def wbr2C5 : Borrowing := ⟨0, 0, 0, 5, some 9, true⟩

/-- Race scenario: one book (id 0) with availableCopies = totalCopies = 1,
no borrowings. -/
def raceSt : St := ⟨[wBook1], [], 1, 0⟩

/-- Final state of the racy double borrow: both requests committed, the
book shows 0 available copies while TWO active borrowings exist for its
single copy. -/
def raceStF : St :=
  ⟨[⟨0, "t", "a", none, "i", 0, 1⟩],
    [⟨0, 1, 0, 0, none, false⟩, ⟨1, 2, 0, 0, none, false⟩], 1, 2⟩

/-- The borrowing request A commits in the race. -/
def raceBrA : Borrowing := ⟨0, 1, 0, 0, none, false⟩

/-- The borrowing request B commits in the race. -/
def raceBrB : Borrowing := ⟨1, 2, 0, 0, none, false⟩

/-- State for the search counterexample: one book titled "ab". -/
def cstC9 : St := ⟨[⟨0, "ab", "x", none, "y", 1, 1⟩], [], 1, 0⟩

/-!  Helper lemmas about the store operations. -/

theorem findBook_mem {st : St} {k : Nat} {b : Book} (h : findBook st k = some b) :
    b ∈ st.books :=
  List.mem_of_find?_eq_some h

theorem findBook_id {st : St} {k : Nat} {b : Book} (h : findBook st k = some b) :
    b.id = k := by
  have h1 := List.find?_some h
  simpa using h1

theorem findBorrowing_mem {st : St} {k : Nat} {b : Borrowing}
    (h : findBorrowing st k = some b) : b ∈ st.borrowings :=
  List.mem_of_find?_eq_some h

theorem findBorrowing_id {st : St} {k : Nat} {b : Borrowing}
    (h : findBorrowing st k = some b) : b.id = k := by
  have h1 := List.find?_some h
  simpa using h1

theorem findBook_saveBookAvail_same (st : St) (k : Nat) (v : Int) :
    findBook (saveBookAvail st k v) k =
      (findBook st k).map (fun b => { b with availableCopies := v }) := by
  unfold findBook saveBookAvail
  rw [List.find?_map]
  have hc : ((fun b : Book => b.id == k) ∘
      (fun b : Book => if b.id == k then { b with availableCopies := v } else b)) =
      (fun b : Book => b.id == k) := by
    funext b
    by_cases hb : b.id = k
    · simp [hb]
    · simp [hb]
  rw [hc]
  cases hf : List.find? (fun b : Book => b.id == k) st.books with
  | none => rfl
  | some b =>
    have hid : b.id = k := by simpa using List.find?_some hf
    simp [hid]

theorem countP_map_congr {α : Type} {l : List α} {f : α → α} {p : α → Bool}
    (h : ∀ a ∈ l, p (f a) = p a) : (l.map f).countP p = l.countP p := by
  rw [List.countP_map]
  exact List.countP_congr (fun x hx => by rw [Function.comp_apply, h x hx])

/-- Overwriting the unique element carrying `bid` by a document the
predicate rejects removes exactly one satisfying element. -/
theorem countP_map_flip {l : List Borrowing} {p : Borrowing → Bool}
    {u br : Borrowing} {bid : Nat}
    (hnd : (l.map Borrowing.id).Nodup) (hmem : br ∈ l) (hid : br.id = bid)
    (hp : p br = true) (hpu : p u = false) :
    l.countP p = (l.map (fun b => if b.id == bid then u else b)).countP p + 1 := by
  subst hid
  induction l with
  | nil => cases hmem
  | cons a t ih =>
    rw [List.map_cons, List.nodup_cons] at hnd
    obtain ⟨hna, hnt⟩ := hnd
    rcases List.mem_cons.mp hmem with heq | hmt
    · subst heq
      rw [List.map_cons, if_pos (show (br.id == br.id) = true by simp)]
      rw [List.countP_cons, List.countP_cons, hp, hpu]
      have hmap : (t.map (fun b => if b.id == br.id then u else b)).countP p =
          t.countP p := by
        apply countP_map_congr
        intro b hb
        have hne : ¬ (b.id == br.id) = true := by
          simp only [beq_iff_eq]
          intro hcontra
          exact hna (hcontra ▸ List.mem_map_of_mem Borrowing.id hb)
        rw [if_neg hne]
      rw [hmap]
      simp
    · have hna2 : ¬ (a.id == br.id) = true := by
        simp only [beq_iff_eq]
        intro hcontra
        exact hna (hcontra ▸ List.mem_map_of_mem Borrowing.id hmt)
      rw [List.map_cons, if_neg hna2, List.countP_cons, List.countP_cons,
        ih hnt hmt]
      generalize (if p a = true then 1 else 0) = w
      omega

/-- The map of `saveBookAvail` preserves every document's id. -/
theorem saveBookAvail_map_id (st : St) (k : Nat) (v : Int) :
    (saveBookAvail st k v).books.map Book.id = st.books.map Book.id := by
  unfold saveBookAvail
  rw [List.map_map]
  apply List.map_congr_left
  intro b hb
  by_cases hbk : (b.id == k) = true
  · simp [Function.comp, hbk]
  · simp [Function.comp, hbk]

/-- A book id found in the store is still found after `saveBookAvail`. -/
theorem mem_saveBookAvail_of_id (st : St) (k : Nat) (v : Int) (x : Nat)
    (h : ∃ b ∈ st.books, b.id = x) :
    ∃ b ∈ (saveBookAvail st k v).books, b.id = x := by
  rcases h with ⟨b, hb, hid⟩
  refine ⟨_, List.mem_map_of_mem _ hb, ?_⟩
  by_cases hbk : (b.id == k) = true
  · rw [if_pos hbk]
    exact hid
  · rw [if_neg hbk]
    exact hid

/-- The appended borrowing changes exactly the active count of its own
book (by one, being ACTIVE), and no other book's count. -/
theorem activeCount_append (brs : List Borrowing) (newBr : Borrowing) (x : Nat) :
    activeCount (brs ++ [newBr]) x =
      activeCount brs x +
        (if (newBr.book == x && newBr.returned == false) = true then 1 else 0) := by
  unfold activeCount
  rw [List.countP_append, List.countP_singleton]

/-- The borrowing-core invariant holds of the empty database. -/
theorem inv_emptySt : Inv emptySt := by
  constructor <;> simp [emptySt, activeCount]

/-- `addBook` preserves the borrowing-core invariant. -/
theorem inv_addBook (st : St) (uid : Option Nat) (t a i : String) (c : Int)
    (cat : Option String) (hinv : Inv st) : Inv (addBook st uid t a i c cat).1 := by
  unfold addBook
  split
  · exact hinv
  next u =>
    split
    · exact hinv
    split
    · exact hinv
    split
    · exact hinv
    next hblank hcop hdup =>
      show Inv { st with
        books := st.books ++ [⟨st.nextBookId, t, a, cat, i, c, c⟩]
        nextBookId := st.nextBookId + 1 }
      refine ⟨?_, hinv.borrowingsNodup, ?_, hinv.borrowingsLt, ?_, ?_, ?_⟩
      · show ((st.books ++ [(⟨st.nextBookId, t, a, cat, i, c, c⟩ : Book)]).map Book.id).Nodup
        rw [List.map_append, List.nodup_append]
        refine ⟨hinv.booksNodup, by simp, ?_⟩
        intro x hx hx'
        simp only [List.map_cons, List.map_nil, List.mem_singleton] at hx'
        subst hx'
        rcases List.mem_map.mp hx with ⟨b, hb, hbid⟩
        have := hinv.booksLt b hb
        omega
      · intro b hb
        show b.id < st.nextBookId + 1
        rcases List.mem_append.mp hb with hb1 | hb2
        · have := hinv.booksLt b hb1
          omega
        · rw [List.mem_singleton] at hb2
          subst hb2
          show st.nextBookId < st.nextBookId + 1
          omega
      · intro br hbr
        rcases hinv.refs br hbr with ⟨b, hb, hid⟩
        exact ⟨b, List.mem_append_left _ hb, hid⟩
      · intro b hb
        rcases List.mem_append.mp hb with hb1 | hb2
        · exact hinv.nonneg b hb1
        · rw [List.mem_singleton] at hb2
          subst hb2
          show (0 : Int) ≤ c
          omega
      · intro b hb
        rcases List.mem_append.mp hb with hb1 | hb2
        · exact hinv.conserved b hb1
        · rw [List.mem_singleton] at hb2
          subst hb2
          show c + (activeCount st.borrowings st.nextBookId : Int) = c
          have hz : activeCount st.borrowings st.nextBookId = 0 := by
            apply List.countP_eq_zero.mpr
            intro br hbr
            rcases hinv.refs br hbr with ⟨b2, hb2, hid2⟩
            have hlt := hinv.booksLt b2 hb2
            simp only [Bool.and_eq_true, beq_iff_eq, not_and]
            intro hbook
            omega
          rw [hz]
          simp

/-- The state reached by a successful `borrowBook` satisfies the
invariant. -/
theorem inv_borrow_step (st : St) (m k : Nat) (now : Int) (bk : Book)
    (hinv : Inv st) (hfk : findBook st k = some bk)
    (hle : ¬ bk.availableCopies ≤ 0) :
    Inv { st with
      books := st.books.map
        (fun b => if b.id == k then { b with availableCopies := bk.availableCopies - 1 } else b)
      borrowings := st.borrowings ++ [⟨st.nextBorrowingId, m, k, now, none, false⟩]
      nextBorrowingId := st.nextBorrowingId + 1 } := by
  have hbkmem : bk ∈ st.books := findBook_mem hfk
  have hbkid : bk.id = k := findBook_id hfk
  have hgid : ∀ b : Book,
      (if b.id == k then { b with availableCopies := bk.availableCopies - 1 } else b).id = b.id := by
    intro b
    by_cases hb : (b.id == k) = true
    · rw [if_pos hb]
    · rw [if_neg hb]
  refine ⟨?_, ?_, ?_, ?_, ?_, ?_, ?_⟩
  · show ((st.books.map
        (fun b => if b.id == k then { b with availableCopies := bk.availableCopies - 1 } else b)).map
          Book.id).Nodup
    rw [List.map_map]
    have h2 : st.books.map (Book.id ∘
        (fun b => if b.id == k then { b with availableCopies := bk.availableCopies - 1 } else b)) =
        st.books.map Book.id :=
      List.map_congr_left (fun b _ => hgid b)
    rw [h2]
    exact hinv.booksNodup
  · show ((st.borrowings ++ [(⟨st.nextBorrowingId, m, k, now, none, false⟩ : Borrowing)]).map
        Borrowing.id).Nodup
    rw [List.map_append, List.nodup_append]
    refine ⟨hinv.borrowingsNodup, by simp, ?_⟩
    intro x hx hx'
    simp only [List.map_cons, List.map_nil, List.mem_singleton] at hx'
    subst hx'
    rcases List.mem_map.mp hx with ⟨b, hb, hbid⟩
    have := hinv.borrowingsLt b hb
    omega
  · intro b' hb'
    rcases List.mem_map.mp hb' with ⟨b, hb, rfl⟩
    by_cases hbk : (b.id == k) = true
    · rw [if_pos hbk]
      exact hinv.booksLt b hb
    · rw [if_neg hbk]
      exact hinv.booksLt b hb
  · intro br hbr
    show br.id < st.nextBorrowingId + 1
    rcases List.mem_append.mp hbr with hbr1 | hbr2
    · have := hinv.borrowingsLt br hbr1
      omega
    · rw [List.mem_singleton] at hbr2
      subst hbr2
      show st.nextBorrowingId < st.nextBorrowingId + 1
      omega
  · intro br hbr
    rcases List.mem_append.mp hbr with hbr1 | hbr2
    · exact mem_saveBookAvail_of_id st k _ _ (hinv.refs br hbr1)
    · rw [List.mem_singleton] at hbr2
      subst hbr2
      exact mem_saveBookAvail_of_id st k _ _ ⟨bk, hbkmem, hbkid⟩
  · intro b' hb'
    rcases List.mem_map.mp hb' with ⟨b, hb, rfl⟩
    by_cases hbk : (b.id == k) = true
    · rw [if_pos hbk]
      show (0 : Int) ≤ bk.availableCopies - 1
      omega
    · rw [if_neg hbk]
      exact hinv.nonneg b hb
  · intro b' hb'
    rcases List.mem_map.mp hb' with ⟨b, hb, rfl⟩
    by_cases hbk : (b.id == k) = true
    · have hbid : b.id = k := by simpa using hbk
      have hbeq : b = bk :=
        List.inj_on_of_nodup_map hinv.booksNodup hb hbkmem (by rw [hbid, hbkid])
      subst hbeq
      rw [if_pos hbk]
      show b.availableCopies - 1 +
          (activeCount (st.borrowings ++ [⟨st.nextBorrowingId, m, k, now, none, false⟩]) b.id : Int) =
        b.totalCopies
      rw [activeCount_append]
      rw [if_pos (by simp [hbkid])]
      have hcons := hinv.conserved b hbkmem
      push_cast
      omega
    · rw [if_neg hbk]
      have hne : b.id ≠ k := by simpa using hbk
      show b.availableCopies +
          (activeCount (st.borrowings ++ [⟨st.nextBorrowingId, m, k, now, none, false⟩]) b.id : Int) =
        b.totalCopies
      rw [activeCount_append]
      rw [if_neg (by simp; omega)]
      have hcons := hinv.conserved b hb
      simpa using hcons

/-- The state reached by a successful `returnBook` satisfies the
invariant. -/
theorem inv_return_step (st : St) (bid : Nat) (now : Int) (br : Borrowing)
    (bk2 : Book) (hinv : Inv st) (hfb : findBorrowing st bid = some br)
    (hret : br.returned = false) (hfk2 : findBook st br.book = some bk2) :
    Inv { st with
      books := st.books.map
        (fun b => if b.id == br.book then { b with availableCopies := bk2.availableCopies + 1 } else b)
      borrowings := st.borrowings.map
        (fun b => if b.id == bid then { br with returned := true, returnDate := some now } else b) } := by
  have hbrmem : br ∈ st.borrowings := findBorrowing_mem hfb
  have hbrid : br.id = bid := findBorrowing_id hfb
  have hbk2mem : bk2 ∈ st.books := findBook_mem hfk2
  have hbk2id : bk2.id = br.book := findBook_id hfk2
  have hgid : ∀ b : Book,
      (if b.id == br.book then { b with availableCopies := bk2.availableCopies + 1 } else b).id = b.id := by
    intro b
    by_cases hb : (b.id == br.book) = true
    · rw [if_pos hb]
    · rw [if_neg hb]
  have hfid : ∀ b ∈ st.borrowings,
      (if b.id == bid then { br with returned := true, returnDate := some now } else b).id = b.id := by
    intro b hb
    by_cases hbb : (b.id == bid) = true
    · rw [if_pos hbb]
      show br.id = b.id
      have : b.id = bid := by simpa using hbb
      rw [this, hbrid]
    · rw [if_neg hbb]
  refine ⟨?_, ?_, ?_, ?_, ?_, ?_, ?_⟩
  · show ((st.books.map
        (fun b => if b.id == br.book then { b with availableCopies := bk2.availableCopies + 1 } else b)).map
          Book.id).Nodup
    rw [List.map_map]
    have h2 : st.books.map (Book.id ∘
        (fun b => if b.id == br.book then { b with availableCopies := bk2.availableCopies + 1 } else b)) =
        st.books.map Book.id :=
      List.map_congr_left (fun b _ => hgid b)
    rw [h2]
    exact hinv.booksNodup
  · show ((st.borrowings.map
        (fun b => if b.id == bid then { br with returned := true, returnDate := some now } else b)).map
          Borrowing.id).Nodup
    rw [List.map_map]
    have h2 : st.borrowings.map (Borrowing.id ∘
        (fun b => if b.id == bid then { br with returned := true, returnDate := some now } else b)) =
        st.borrowings.map Borrowing.id :=
      List.map_congr_left hfid
    rw [h2]
    exact hinv.borrowingsNodup
  · intro b' hb'
    rcases List.mem_map.mp hb' with ⟨b, hb, rfl⟩
    by_cases hbk : (b.id == br.book) = true
    · rw [if_pos hbk]
      exact hinv.booksLt b hb
    · rw [if_neg hbk]
      exact hinv.booksLt b hb
  · intro b' hb'
    rcases List.mem_map.mp hb' with ⟨b, hb, rfl⟩
    show (if b.id == bid then { br with returned := true, returnDate := some now } else b).id <
      st.nextBorrowingId
    rw [hfid b hb]
    exact hinv.borrowingsLt b hb
  · intro b' hb'
    rcases List.mem_map.mp hb' with ⟨b, hb, rfl⟩
    by_cases hbb : (b.id == bid) = true
    · rw [if_pos hbb]
      exact mem_saveBookAvail_of_id st br.book _ _ ⟨bk2, hbk2mem, hbk2id⟩
    · rw [if_neg hbb]
      exact mem_saveBookAvail_of_id st br.book _ _ (hinv.refs b hb)
  · intro b' hb'
    rcases List.mem_map.mp hb' with ⟨b, hb, rfl⟩
    by_cases hbk : (b.id == br.book) = true
    · rw [if_pos hbk]
      show (0 : Int) ≤ bk2.availableCopies + 1
      have := hinv.nonneg bk2 hbk2mem
      omega
    · rw [if_neg hbk]
      exact hinv.nonneg b hb
  · intro b' hb'
    rcases List.mem_map.mp hb' with ⟨b, hb, rfl⟩
    by_cases hbk : (b.id == br.book) = true
    · have hbid : b.id = br.book := by simpa using hbk
      have hbeq : b = bk2 :=
        List.inj_on_of_nodup_map hinv.booksNodup hb hbk2mem (by rw [hbid, hbk2id])
      subst hbeq
      rw [if_pos hbk]
      show b.availableCopies + 1 +
          (activeCount (st.borrowings.map
            (fun x => if x.id == bid then { br with returned := true, returnDate := some now } else x))
            b.id : Int) =
        b.totalCopies
      have hflip : st.borrowings.countP
            (fun x => x.book == b.id && x.returned == false) =
          ((st.borrowings.map
            (fun x => if x.id == bid then { br with returned := true, returnDate := some now } else x)).countP
            (fun x => x.book == b.id && x.returned == false)) + 1 := by
        apply countP_map_flip hinv.borrowingsNodup hbrmem hbrid
        · simp [hbid, hret]
        · simp
      have hcons := hinv.conserved b hb
      unfold activeCount at hcons ⊢
      omega
    · rw [if_neg hbk]
      have hne : b.id ≠ br.book := by simpa using hbk
      show b.availableCopies +
          (activeCount (st.borrowings.map
            (fun x => if x.id == bid then { br with returned := true, returnDate := some now } else x))
            b.id : Int) =
        b.totalCopies
      have hsame : (st.borrowings.map
            (fun x => if x.id == bid then { br with returned := true, returnDate := some now } else x)).countP
            (fun x => x.book == b.id && x.returned == false) =
          st.borrowings.countP (fun x => x.book == b.id && x.returned == false) := by
        apply countP_map_congr
        intro x hx
        by_cases hxid : (x.id == bid) = true
        · have hxbid : x.id = bid := by simpa using hxid
          have hxeq : x = br :=
            List.inj_on_of_nodup_map hinv.borrowingsNodup hx hbrmem (by rw [hxbid, hbrid])
          rw [if_pos hxid, hxeq]
          show ((br.book == b.id) && (true == false)) = ((br.book == b.id) && (br.returned == false))
          rw [hret]
          simp [Ne.symm hne]
        · rw [if_neg hxid]
      have hcons := hinv.conserved b hb
      unfold activeCount at hcons ⊢
      rw [hsame]
      exact hcons

/-- `saveBorrowing` leaves the Book collection untouched. -/
theorem findBook_saveBorrowing (st : St) (bid : Nat) (u : Borrowing) (k : Nat) :
    findBook (saveBorrowing st bid u) k = findBook st k := rfl

/-- A borrowing's referenced book is always found (under the invariant). -/
theorem findBook_of_refs (st : St) (br : Borrowing) (hinv : Inv st)
    (hbr : br ∈ st.borrowings) : ∃ bk2, findBook st br.book = some bk2 := by
  rcases hinv.refs br hbr with ⟨b2, hb2, hid2⟩
  have h1 : (findBook st br.book).isSome = true := by
    unfold findBook
    rw [List.find?_isSome]
    exact ⟨b2, hb2, by simp [hid2]⟩
  exact Option.isSome_iff_exists.mp h1

/-- `borrowBook` preserves the borrowing-core invariant. -/
theorem inv_borrowBook (st : St) (uid : Option Nat) (k : Nat) (now : Int)
    (hinv : Inv st) : Inv (borrowBook st uid k now).1 := by
  cases uid with
  | none => exact hinv
  | some m =>
    cases hfk : findBook st k with
    | none =>
      have h : borrowBook st (some m) k now = (st, .error .BOOK_NOT_FOUND) := by
        simp [borrowBook, hfk]
      rw [h]
      exact hinv
    | some bk =>
      by_cases hle : bk.availableCopies ≤ 0
      · have h : borrowBook st (some m) k now = (st, .error .NO_COPIES_AVAILABLE) := by
          simp [borrowBook, hfk, hle]
        rw [h]
        exact hinv
      · by_cases hact : hasActiveBorrowing st m k = true
        · have h : borrowBook st (some m) k now = (st, .error .ALREADY_BORROWED) := by
            simp [borrowBook, hfk, hle, hact]
          rw [h]
          exact hinv
        · have h : (borrowBook st (some m) k now).1 =
              saveBookAvail (createBorrowing st m k now).1 k (bk.availableCopies - 1) := by
            simp [borrowBook, hfk, hle, hact]
          rw [h]
          exact inv_borrow_step st m k now bk hinv hfk hle

/-- `returnBook` preserves the borrowing-core invariant. -/
theorem inv_returnBook (st : St) (uid : Option Nat) (bid : Nat) (now : Int)
    (hinv : Inv st) : Inv (returnBook st uid bid now).1 := by
  cases uid with
  | none => exact hinv
  | some m =>
    cases hfb : findBorrowing st bid with
    | none =>
      have h : returnBook st (some m) bid now = (st, .error .BORROWING_NOT_FOUND) := by
        simp [returnBook, hfb]
      rw [h]
      exact hinv
    | some br =>
      by_cases hm : br.member = m
      · by_cases hret : br.returned = true
        · have h : returnBook st (some m) bid now = (st, .error .ALREADY_RETURNED) := by
            simp [returnBook, hfb, hm, hret]
          rw [h]
          exact hinv
        · have hret' : br.returned = false := by
            revert hret
            cases br.returned <;> simp
          rcases findBook_of_refs st br hinv (findBorrowing_mem hfb) with ⟨bk2, hfk2⟩
          have h : (returnBook st (some m) bid now).1 =
              saveBookAvail
                (saveBorrowing st bid { br with returned := true, returnDate := some now })
                br.book (bk2.availableCopies + 1) := by
            simp [returnBook, hfb, hm, hret, findBook_saveBorrowing, hfk2]
          rw [h]
          exact inv_return_step st bid now br bk2 hinv hfb hret' hfk2
      · have h : returnBook st (some m) bid now = (st, .error .UNAUTHORIZED) := by
          simp [returnBook, hfb, hm]
        rw [h]
        exact hinv

/-- Every operation preserves the borrowing-core invariant. -/
theorem inv_applyOp (st : St) (op : Op) (hinv : Inv st) : Inv (applyOp st op) := by
  cases op with
  | addBook uid t a i c cat => exact inv_addBook st uid t a i c cat hinv
  | borrowBook uid k now => exact inv_borrowBook st uid k now hinv
  | returnBook uid bid now => exact inv_returnBook st uid bid now hinv

theorem inv_foldl (ops : List Op) : ∀ st : St, Inv st → Inv (ops.foldl applyOp st) := by
  induction ops with
  | nil => intro st h; exact h
  | cons op t ih =>
    intro st h
    exact ih _ (inv_applyOp st op h)

/-- Every state reachable from the empty catalog satisfies the invariant. -/
theorem inv_run (ops : List Op) : Inv (run ops) :=
  inv_foldl ops emptySt inv_emptySt

/-!  The claims. -/

/-- C1.  For an authenticated member and a book id, `borrowBook` succeeds
iff the book exists, has `availableCopies > 0`, and no ACTIVE borrowing
for the (member, book) pair exists; the checks fail in source order with
`BOOK_NOT_FOUND`, `NO_COPIES_AVAILABLE`, `ALREADY_BORROWED`, and on
success the new ACTIVE borrowing (`returned = false`, `borrowDate = now`)
is appended and the book's `availableCopies` drops by exactly 1. -/
theorem claimC1 (st : St) (m k : Nat) (now : Int) :
    (findBook st k = none →
      borrowBook st (some m) k now = (st, .error .BOOK_NOT_FOUND)) ∧
    (∀ bk, findBook st k = some bk → bk.availableCopies ≤ 0 →
      borrowBook st (some m) k now = (st, .error .NO_COPIES_AVAILABLE)) ∧
    (∀ bk, findBook st k = some bk → 0 < bk.availableCopies →
      hasActiveBorrowing st m k = true →
      borrowBook st (some m) k now = (st, .error .ALREADY_BORROWED)) ∧
    (∀ bk, findBook st k = some bk → 0 < bk.availableCopies →
      hasActiveBorrowing st m k = false →
      (borrowBook st (some m) k now).2 =
        .ok ⟨st.nextBorrowingId, m, k, now, none, false⟩ ∧
      (borrowBook st (some m) k now).1.borrowings =
        st.borrowings ++ [⟨st.nextBorrowingId, m, k, now, none, false⟩] ∧
      findBook (borrowBook st (some m) k now).1 k =
        some { bk with availableCopies := bk.availableCopies - 1 }) ∧
    ((∃ br, (borrowBook st (some m) k now).2 = .ok br) ↔
      (∃ bk, findBook st k = some bk ∧ 0 < bk.availableCopies) ∧
        hasActiveBorrowing st m k = false) := by
  refine ⟨?_, ?_, ?_, ?_, ?_⟩
  · intro h
    simp [borrowBook, h]
  · intro bk h hle
    simp [borrowBook, h, hle]
  · intro bk h hpos hact
    have hno : ¬ bk.availableCopies ≤ 0 := by omega
    simp [borrowBook, h, hno, hact]
  · intro bk h hpos hact
    have hno : ¬ bk.availableCopies ≤ 0 := by omega
    refine ⟨?_, ?_, ?_⟩
    · simp [borrowBook, createBorrowing, h, hno, hact]
    · simp [borrowBook, h, hno, hact, saveBookAvail, createBorrowing]
    · have hb : (borrowBook st (some m) k now).1 =
          saveBookAvail (createBorrowing st m k now).1 k (bk.availableCopies - 1) := by
        simp [borrowBook, h, hno, hact]
      rw [hb, findBook_saveBookAvail_same]
      have hfb : findBook (createBorrowing st m k now).1 k = findBook st k := rfl
      rw [hfb, h]
      rfl
  · cases hfk : findBook st k with
    | none => simp [borrowBook, hfk]
    | some bk =>
      by_cases hle : bk.availableCopies ≤ 0
      · have hres : borrowBook st (some m) k now = (st, .error .NO_COPIES_AVAILABLE) := by
          simp [borrowBook, hfk, hle]
        rw [hres]
        constructor
        · rintro ⟨br, hbr⟩
          simp at hbr
        · rintro ⟨⟨bk2, hbk2, hpos⟩, _⟩
          have hbb := Option.some.inj hbk2
          subst hbb
          omega
      · cases hact : hasActiveBorrowing st m k with
        | true =>
          have hres : borrowBook st (some m) k now = (st, .error .ALREADY_BORROWED) := by
            simp [borrowBook, hfk, hle, hact]
          rw [hres]
          constructor
          · rintro ⟨br, hbr⟩
            simp at hbr
          · rintro ⟨_, hfalse⟩
            simp at hfalse
        | false =>
          constructor
          · intro _
            exact ⟨⟨bk, rfl, by omega⟩, rfl⟩
          · intro _
            refine ⟨(createBorrowing st m k now).2, ?_⟩
            simp [borrowBook, hfk, hle, hact]

/-- C2.  After any sequence of operations from the empty catalog, every
book satisfies `0 ≤ availableCopies ≤ totalCopies` (with `totalCopies`
the copy count given at the book's creation, tracked as ghost data). -/
theorem claimC2 (ops : List Op) : ∀ b ∈ (run ops).books,
    0 ≤ b.availableCopies ∧ b.availableCopies ≤ b.totalCopies := by
  intro b hb
  refine ⟨(inv_run ops).nonneg b hb, ?_⟩
  have h := (inv_run ops).conserved b hb
  have h2 : (0 : Int) ≤ (activeCount (run ops).borrowings b.id : Int) :=
    Int.natCast_nonneg _
  omega

/-- Witness for C2: after adding a 2-copy book and borrowing it once, the
resulting book (1 of 2 copies available) satisfies the invariant. -/
theorem claimC2_witness :
    wbookC2 ∈ (run wopsC2).books ∧
    (0 ≤ wbookC2.availableCopies ∧ wbookC2.availableCopies ≤ wbookC2.totalCopies) :=
  ⟨by decide, claimC2 wopsC2 wbookC2 (by decide)⟩

/-- C3.  Only the owning member may return a loan: if the borrowing's
member differs from the acting authenticated member, `returnBook` fails
with `UNAUTHORIZED` and leaves the whole state (borrowing record and
book's `availableCopies` included) unchanged. -/
theorem claimC3 (st : St) (m bid : Nat) (now : Int) (br : Borrowing)
    (h1 : findBorrowing st bid = some br) (h2 : br.member ≠ m) :
    returnBook st (some m) bid now = (st, .error .UNAUTHORIZED) := by
  simp [returnBook, h1, h2]

/-- Witness for C3: in `wstC3` the borrowing is owned by member 0, and
member 1's `returnBook` fails `UNAUTHORIZED` with the state unchanged. -/
theorem claimC3_witness :
    returnBook wstC3 (some 1) 0 2 = (wstC3, .error .UNAUTHORIZED) :=
  claimC3 wstC3 1 0 2 ⟨0, 0, 0, 0, none, false⟩ (by decide) (by decide)

/-- Counterexample to C4 as stated: on a RETURNED borrowing owned by
member 0, `returnBook` by member 1 fails with `UNAUTHORIZED`, not
`ALREADY_RETURNED` — the ownership check precedes the returned check. -/
theorem claimC4_cex :
    returnBook cstC4 (some 1) 0 2 = (cstC4, .error .UNAUTHORIZED) ∧
    ErrCode.UNAUTHORIZED ≠ ErrCode.ALREADY_RETURNED := by
  exact ⟨by decide, by decide⟩

/-- C4 (amended).  `returnBook` on a RETURNED borrowing always fails and
leaves the state unchanged (so `availableCopies` is never incremented
again and the borrowing is not modified): with `ALREADY_RETURNED` when the
caller owns the borrowing, and with `UNAUTHORIZED` (checked first) when
they do not. -/
theorem claimC4 (st : St) (m bid : Nat) (now : Int) (br : Borrowing)
    (h1 : findBorrowing st bid = some br) (h2 : br.returned = true) :
    (returnBook st (some m) bid now).1 = st ∧
    (returnBook st (some m) bid now).2 =
      .error (if br.member = m then ErrCode.ALREADY_RETURNED
        else ErrCode.UNAUTHORIZED) := by
  by_cases hm : br.member = m
  · simp [returnBook, h1, hm, h2]
  · simp [returnBook, h1, hm]

/-- Witness for C4 (amended): the owner's return of the already-returned
borrowing of `cstC4` fails `ALREADY_RETURNED` and changes nothing. -/
theorem claimC4_witness :
    (returnBook cstC4 (some 0) 0 2).1 = cstC4 ∧
    (returnBook cstC4 (some 0) 0 2).2 =
      .error (if (⟨0, 0, 0, 0, some 1, true⟩ : Borrowing).member = 0
        then ErrCode.ALREADY_RETURNED else ErrCode.UNAUTHORIZED) :=
  claimC4 cstC4 0 0 2 ⟨0, 0, 0, 0, some 1, true⟩ (by decide) (by decide)

/-- C5.  Round trip: when a member's borrow succeeds and the same member
then returns the borrowing it created, the book's `availableCopies` is
restored to its pre-borrow value, exactly one Borrowing record for the
interaction exists (the one the borrow created), now RETURNED with
`returned = true` and `returnDate` set, and no ACTIVE borrowing for the
(member, book) pair remains. -/
theorem claimC5 (st : St) (m k : Nat) (now now2 : Int) (st1 st2 : St)
    (br br2 : Borrowing) (hinv : Inv st)
    (hb : borrowBook st (some m) k now = (st1, .ok br))
    (hr : returnBook st1 (some m) br.id now2 = (st2, .ok br2)) :
    (findBook st2 k).map Book.availableCopies =
      (findBook st k).map Book.availableCopies ∧
    st2.borrowings.filter (fun b => b.id == br.id) = [br2] ∧
    br2.returned = true ∧ br2.returnDate = some now2 ∧
    br2.member = m ∧ br2.book = k ∧
    hasActiveBorrowing st2 m k = false := by
  cases hfk : findBook st k with
  | none => simp [borrowBook, hfk] at hb
  | some bk =>
    by_cases hle : bk.availableCopies ≤ 0
    · simp [borrowBook, hfk, hle] at hb
    · by_cases hact : hasActiveBorrowing st m k = true
      · simp [borrowBook, hfk, hle, hact] at hb
      · have hb2 : borrowBook st (some m) k now =
            (saveBookAvail (createBorrowing st m k now).1 k (bk.availableCopies - 1),
              Except.ok (⟨st.nextBorrowingId, m, k, now, none, false⟩ : Borrowing)) := by
          simp [borrowBook, hfk, hle, hact]
          rfl
        rw [hb2] at hb
        injection hb with hst1 hbrx
        injection hbrx with hbr
        subst hst1
        subst hbr
        have hid : (⟨st.nextBorrowingId, m, k, now, none, false⟩ : Borrowing).id =
            st.nextBorrowingId := rfl
        rw [hid] at hr
        have hfind : findBorrowing
            (saveBookAvail (createBorrowing st m k now).1 k (bk.availableCopies - 1))
            st.nextBorrowingId =
            some ⟨st.nextBorrowingId, m, k, now, none, false⟩ := by
          show (st.borrowings ++ [(⟨st.nextBorrowingId, m, k, now, none, false⟩ : Borrowing)]).find?
              (fun b : Borrowing => b.id == st.nextBorrowingId) =
            some ⟨st.nextBorrowingId, m, k, now, none, false⟩
          rw [List.find?_append]
          have h1 : st.borrowings.find? (fun b => b.id == st.nextBorrowingId) = none := by
            rw [List.find?_eq_none]
            intro x hx
            have := hinv.borrowingsLt x hx
            simp only [beq_iff_eq]
            omega
          rw [h1]
          simp
        have hfk1 : findBook
            (saveBookAvail (createBorrowing st m k now).1 k (bk.availableCopies - 1)) k =
            some { bk with availableCopies := bk.availableCopies - 1 } := by
          rw [findBook_saveBookAvail_same]
          have h0 : findBook (createBorrowing st m k now).1 k = findBook st k := rfl
          rw [h0, hfk]
          rfl
        simp [returnBook, hfind, findBook_saveBorrowing, hfk1] at hr
        obtain ⟨hst2, hbr2⟩ := hr
        subst hst2
        subst hbr2
        have hmapf : st.borrowings.map
            (fun b => if b.id == st.nextBorrowingId then
              (⟨st.nextBorrowingId, m, k, now, some now2, true⟩ : Borrowing) else b) =
            st.borrowings := by
          have hpt : ∀ b ∈ st.borrowings,
              (if b.id == st.nextBorrowingId then
                (⟨st.nextBorrowingId, m, k, now, some now2, true⟩ : Borrowing) else b) = b := by
            intro b hb
            have := hinv.borrowingsLt b hb
            rw [if_neg]
            simp only [beq_iff_eq]
            omega
          rw [List.map_congr_left hpt, List.map_id']
        refine ⟨?_, ?_, rfl, rfl, rfl, rfl, ?_⟩
        · rw [findBook_saveBookAvail_same, findBook_saveBorrowing, hfk1]
          simp
        · show ((st.borrowings ++ [(⟨st.nextBorrowingId, m, k, now, none, false⟩ : Borrowing)]).map
              (fun b : Borrowing => if b.id == st.nextBorrowingId then
                (⟨st.nextBorrowingId, m, k, now, some now2, true⟩ : Borrowing) else b)).filter
              (fun b : Borrowing => b.id == st.nextBorrowingId) =
            [(⟨st.nextBorrowingId, m, k, now, some now2, true⟩ : Borrowing)]
          rw [List.map_append, hmapf, List.filter_append]
          have hfilter1 : st.borrowings.filter
              (fun b : Borrowing => b.id == st.nextBorrowingId) = [] := by
            rw [List.filter_eq_nil_iff]
            intro b hb
            have := hinv.borrowingsLt b hb
            simp only [beq_iff_eq]
            omega
          rw [hfilter1]
          simp
        · show ((st.borrowings ++ [(⟨st.nextBorrowingId, m, k, now, none, false⟩ : Borrowing)]).map
              (fun b : Borrowing => if b.id == st.nextBorrowingId then
                (⟨st.nextBorrowingId, m, k, now, some now2, true⟩ : Borrowing) else b)).any
              (fun b : Borrowing => b.member == m && b.book == k && b.returned == false) = false
          rw [List.map_append, hmapf, List.any_append]
          have hactf : hasActiveBorrowing st m k = false := by
            revert hact
            cases hasActiveBorrowing st m k <;> simp
          have h3 : st.borrowings.any
              (fun b : Borrowing => b.member == m && b.book == k && b.returned == false) =
              false := hactf
          rw [h3]
          simp

/-- Witness for C5: in `wstC5` member 0 borrows book 0 (1 of 1 copies) at
time 5 and returns it at time 9: `availableCopies` is restored to 1 and
the single borrowing record is RETURNED with `returnDate = 9`. -/
theorem claimC5_witness :
    ((findBook wst2C5 0).map Book.availableCopies =
      (findBook wstC5 0).map Book.availableCopies) ∧
    wst2C5.borrowings.filter (fun b => b.id == wbrC5.id) = [wbr2C5] ∧
    wbr2C5.returned = true ∧ wbr2C5.returnDate = some 9 ∧
    wbr2C5.member = 0 ∧ wbr2C5.book = 0 ∧
    hasActiveBorrowing wst2C5 0 0 = false :=
  claimC5 wstC5 0 0 5 9 wst1C5 wst2C5 wbrC5 wbr2C5
    (Inv.mk (by decide) (by decide) (by decide) (by decide) (by decide)
      (by decide) (by decide))
    (by decide) (by decide)

/-- C6.  The borrow sequence is NOT linearizable per book: from a book
with `availableCopies = 1` (and `totalCopies = 1`), the interleaving of
two concurrent `borrowBook` calls in which both `findById` reads happen
before either `save` drives BOTH requests to success — two ACTIVE
borrowings are created for the single copy while `availableCopies` ends
at 0 (one decrement is lost), instead of the claimed one success and one
`NO_COPIES_AVAILABLE` failure. -/
theorem claimC6 :
    racyDoubleBorrow raceSt 1 2 0 0 = some (raceStF, raceBrA, raceBrB) ∧
    activeCount raceStF.borrowings 0 = 2 ∧
    (findBook raceStF 0).map Book.availableCopies = some 0 ∧
    raceStF.books.map Book.totalCopies = [1] := by
  decide

/-- C7.  For borrowings whose `borrowDate` is not in the future (every
borrowing the system creates, since `borrowDate` is set to the creation
time), the `daysOverdue` resolver computes exactly the spec's
`max(0, ceil((now - borrowDate) in days) - 14)` for ACTIVE borrowings and
0 for RETURNED ones. -/
theorem claimC7 (returned : Bool) (borrowDate now : Int)
    (h : borrowDate ≤ now) :
    daysOverdue returned borrowDate now = specDaysOverdue returned borrowDate now := by
  cases returned with
  | true => simp [daysOverdue, specDaysOverdue]
  | false =>
    have habs : (now - borrowDate).natAbs = (now - borrowDate).toNat := by omega
    simp only [daysOverdue, specDaysOverdue, habs, eq_self_iff_true, if_true]
    rcases le_or_lt (((now - borrowDate).toNat + (msPerDay - 1)) / msPerDay) 14 with hle | hlt
    · rw [if_neg (by omega), max_eq_left (by omega)]
    · rw [if_pos hlt, max_eq_right (by omega)]

/-- Witness for C7: an ACTIVE borrowing whose `borrowDate` is exactly 20
days before `now` has `daysOverdue = 6`, matching the spec's formula. -/
theorem claimC7_witness :
    daysOverdue false 0 1728000000 = specDaysOverdue false 0 1728000000 ∧
    daysOverdue false 0 1728000000 = 6 :=
  ⟨claimC7 false 0 1728000000 (by decide), by decide⟩

/-- Counterexample to C8 as stated: with `totalCopies = -1` (blank-free
fields, empty catalog), `addBook` fails with `INVALID_COPIES`, not the
claimed `INVALID_INPUT` — the `!copies` falsiness check only catches 0,
and the `copies < 1` check throws its own distinct code. -/
theorem claimC8_cex :
    addBook emptySt (some 0) "t" "a" "i" (-1) none =
      (emptySt, .error .INVALID_COPIES) ∧
    ErrCode.INVALID_COPIES ≠ ErrCode.INVALID_INPUT := by
  exact ⟨by decide, by decide⟩

/-- C8 (amended).  For an authenticated caller, `addBook` fails with
`INVALID_INPUT` when a required field is blank or `totalCopies` is 0,
with `INVALID_COPIES` when `totalCopies` is otherwise < 1 (i.e.
negative), with `ISBN_EXISTS` when the input is valid but the isbn is
already present, and otherwise creates the book with
`availableCopies = totalCopies`. -/
theorem claimC8 (st : St) (u : Nat) (t a i : String) (c : Int)
    (cat : Option String) :
    ((t = "" ∨ a = "" ∨ i = "" ∨ c = 0) →
      addBook st (some u) t a i c cat = (st, .error .INVALID_INPUT)) ∧
    (t ≠ "" → a ≠ "" → i ≠ "" → c ≠ 0 → c < 1 →
      addBook st (some u) t a i c cat = (st, .error .INVALID_COPIES)) ∧
    (t ≠ "" → a ≠ "" → i ≠ "" → 1 ≤ c →
      st.books.any (fun b => b.isbn == i) = true →
      addBook st (some u) t a i c cat = (st, .error .ISBN_EXISTS)) ∧
    (t ≠ "" → a ≠ "" → i ≠ "" → 1 ≤ c →
      st.books.any (fun b => b.isbn == i) = false →
      addBook st (some u) t a i c cat =
        ({ st with
            books := st.books ++ [⟨st.nextBookId, t, a, cat, i, c, c⟩]
            nextBookId := st.nextBookId + 1 },
          .ok ⟨st.nextBookId, t, a, cat, i, c, c⟩)) := by
  refine ⟨?_, ?_, ?_, ?_⟩
  · intro h
    rcases h with h | h | h | h
    · simp [addBook, h]
    · simp [addBook, h]
    · simp [addBook, h]
    · simp [addBook, h]
  · intro ht ha hi hc hlt
    simp [addBook, ht, ha, hi, hc, hlt]
  · intro ht ha hi hc hdup
    have hc0 : ¬ c = 0 := by omega
    have hcl : ¬ c < 1 := by omega
    simp [addBook, ht, ha, hi, hc0, hcl, hdup]
  · intro ht ha hi hc hdup
    have hc0 : ¬ c = 0 := by omega
    have hcl : ¬ c < 1 := by omega
    simp [addBook, ht, ha, hi, hc0, hcl, hdup]

/-- A pattern of literals matches a prefix exactly like the
case-insensitive prefix test. -/
theorem matchesAt_lits (n : List Char) : ∀ s : List Char,
    matchesAt (n.map PChar.lit) s = isPref n s := by
  induction n with
  | nil =>
    intro s
    cases s <;> rfl
  | cons c tn ih =>
    intro s
    cases s with
    | nil => rfl
    | cons d ts =>
      show (chEq c d && matchesAt (tn.map PChar.lit) ts) = (chEq c d && isPref tn ts)
      rw [ih]

/-- Unanchored matching of a literal pattern is exactly case-insensitive
substring containment. -/
theorem matchesIn_lits (n : List Char) : ∀ s : List Char,
    matchesIn (n.map PChar.lit) s = containsSub n s := by
  intro s
  induction s with
  | nil => exact matchesAt_lits n []
  | cons d t ih =>
    show (matchesAt (n.map PChar.lit) (d :: t) || matchesIn (n.map PChar.lit) t) =
      (isPref n (d :: t) || containsSub n t)
    rw [matchesAt_lits, ih]

/-- A query without `.` compiles to a pattern of literals. -/
theorem parsePattern_no_dot (q : List Char) (h : '.' ∉ q) :
    parsePattern q = q.map PChar.lit := by
  unfold parsePattern
  apply List.map_congr_left
  intro c hc
  rw [if_neg]
  intro hceq
  exact h (hceq ▸ hc)

/-- C9 (amended).  For every query containing no regex metacharacter,
`searchBooks` returns exactly the books whose title or author contains the
query as a case-insensitive substring; queries are interpreted as regular
expressions, so a metacharacter such as `.` matches any character instead
of itself (see the counterexample). -/
theorem claimC9 (st : St) (q : String)
    (h : ∀ c ∈ q.toList, c ∉ regexMetaChars) :
    searchBooks st q = specSearchBooks st q := by
  have hd : '.' ∉ q.toList := by
    intro hc
    exact h '.' hc (by decide)
  unfold searchBooks specSearchBooks
  apply List.filter_congr
  intro b hb
  rw [parsePattern_no_dot q.toList hd, matchesIn_lits, matchesIn_lits]

/-- Witness for C9 (amended): the metacharacter-free query "ab" returns
exactly the substring matches. -/
theorem claimC9_witness :
    (∀ c ∈ ("ab" : String).toList, c ∉ regexMetaChars) ∧
    searchBooks cstC9 "ab" = specSearchBooks cstC9 "ab" :=
  ⟨by decide, claimC9 cstC9 "ab" (by decide)⟩

/-- Counterexample to C9 as stated: the query "." is passed to `$regex`
as a pattern, so it matches the book titled "ab" (`.` matches any
character), while "." is not a substring of "ab" or "x": search does not
return exactly the case-insensitive substring matches. -/
theorem claimC9_cex :
    searchBooks cstC9 "." = [⟨0, "ab", "x", none, "y", 1, 1⟩] ∧
    specSearchBooks cstC9 "." = [] ∧
    searchBooks cstC9 "." ≠ specSearchBooks cstC9 "." := by
  exact ⟨by decide, by decide, by decide⟩

/-- C10.  The Book document persisted by `addBook` carries no
`totalCopies` field — the schema does not declare that path, so mongoose
drops the `totalCopies: copies` value passed to `Book.create` — while
`availableCopies` is persisted with the value `copies`. -/
theorem claimC10 (t a i : String) (c : Int) (cat : Option String) :
    (persistedBook t a i c cat).lookup "totalCopies" = none ∧
    (persistedBook t a i c cat).lookup "availableCopies" = some (DocVal.int c) := by
  cases cat <;>
    simp [persistedBook, mongooseCreate, addBookCreateDoc, bookSchemaFields,
      List.lookup, List.filter]

end LibSpec
